import Mathlib

/-!
# Sick S300 laser driver node (`src/sicks300.cpp`)

A shallow embedding of the `SickS300` class: the constructor (parameter
reading, field-of-view window, scan message set-up), `update` (reconnect,
read, window copy, time stamp, publish) and `broadcast_transform`.

Conventions of the embedding.

* The `double` holding the requested field of view decides integer results,
  so it is modelled by value (`DoubleVal`): a finite double is a rational
  number, and the non-finite values are kept as separate constructors.
* Every other floating-point quantity is only computed once and carried
  around; those use Lean's binary64 `Float`, and the single-precision fields of
  the scan message go through the collaborator operation `narrow`.
* `int` is 32-bit two's complement, `unsigned int` is 32-bit.  The header that
  declares the members is not part of the sources; `field_of_view_` is taken
  as `int` (it receives an `(int)` cast) and `start_scan_`, `end_scan_` as
  `unsigned int` (they bound the `unsigned int` loop counter).
* Undefined behaviour and thrown exceptions are the `none` result.
* ROS, tf, the serial link and the timestamp synchronizer are collaborators:
  their operations are parameters (`Collab`) and their answers during one call
  of `update` are a `Tick`.  Calls made to them are recorded as `Event`s.
  Log output (`ROS_WARN`, `ROS_INFO`) is not recorded.
-/

namespace Sicks300

/-! ## Machine numbers -/

/-- Value of a C++ `double`: a finite value (a rational number), an infinity,
or a NaN. -/
inductive DoubleVal where
  | finite (q : ℚ)
  | posInf
  | negInf
  | nan
deriving DecidableEq

namespace DoubleVal

/-- IEEE `a < b`; false as soon as one side is a NaN. -/
def lt : DoubleVal → DoubleVal → Bool
  | nan, _ => false
  | _, nan => false
  | finite a, finite b => decide (a < b)
  | finite _, posInf => true
  | finite _, negInf => false
  | posInf, _ => false
  | negInf, negInf => false
  | negInf, _ => true

/-- IEEE `a > b`. -/
def gt (a b : DoubleVal) : Bool := lt b a

/-- Largest finite binary64 value. -/
def dblMax : ℚ := 2 ^ 1024 - 2 ^ 971

/-- The product `x * 2.0`.  Doubling a binary64 value is exact unless it
overflows to an infinity. -/
def mul2 : DoubleVal → DoubleVal
  | finite q =>
    if dblMax < q * 2 then posInf
    else if q * 2 < -dblMax then negInf
    else finite (q * 2)
  | posInf => posInf
  | negInf => negInf
  | nan => nan

/-- The cast `(int)x`: truncation toward zero; undefined when the truncated
value is not an `int`, in particular for infinities and NaN. -/
def toInt : DoubleVal → Option Int
  | finite q =>
    let t := Int.tdiv q.num q.den
    if -2147483648 ≤ t ∧ t ≤ 2147483647 then some t else none
  | _ => none

end DoubleVal

/-- Reduction of an integer to the 32-bit two's complement range. -/
def wrapInt (z : Int) : Int := (z + 2147483648) % 4294967296 - 2147483648

/-- The statement `v <<= 1` on an `int`. -/
def shl1 (v : Int) : Int := wrapInt (v * 2)

/-- The statement `v >>= 1` on an `int` (arithmetic shift). -/
def shr1 (v : Int) : Int := v >>> (1 : Nat)

/-- Conversion of an `int` to `unsigned int`. -/
def toUnsigned (z : Int) : Nat := (z % 4294967296).toNat

/-! ## Data -/

/-- A `tf::Vector3`. -/
structure Vector3 where
  x : Float
  y : Float
  z : Float

/-- A `tf::Quaternion`. -/
structure Quaternion where
  x : Float
  y : Float
  z : Float
  w : Float

/-- A `tf::StampedTransform`. -/
structure StampedTransform (T : Type) where
  rotation : Quaternion
  translation : Vector3
  stamp : T
  frame_id : String
  child_frame_id : String

/-- The fields of `sensor_msgs::LaserScan` that the node touches.  `F` is the
single-precision sample type, `T` is `ros::Time`. -/
structure LaserScan (F T : Type) where
  frame_id : String
  stamp : T
  angle_min : F
  angle_max : F
  angle_increment : F
  time_increment : F
  scan_time : F
  range_min : F
  range_max : F
  ranges : List F
  intensities : List F

/-- Operations of the collaborators: conversion of a `double` to `float`
(`narrow`), the value-initialised `float` (`fzero`), the single-precision
quotient `0.5f / 180.f` widened to `double` (`halfDegree`), `ros::Time` (the
default time, `toSec` and the constructor from seconds), the synchronizer made
by the constructor and `TimestampSynchronizer::sync`, which updates the
synchronizer state `Y`. -/
structure Collab (F T Y : Type) where
  narrow : Float → F
  fzero : F
  halfDegree : Float
  timeZero : T
  toSec : T → Float
  ofSec : Float → T
  newSync : Y
  sync : Y → Float → Float → Int → Float × Y

/-- Values obtained from the parameter server (after defaulting). -/
structure Params where
  frame : String
  send_transform : Int
  enable_time_sync : Bool
  tf_x : Float
  tf_y : Float
  tf_z : Float
  field_of_view : DoubleVal
  devicename : String
  baudrate : Int

/-- The defaults given to `param_node.param`. -/
def defaultParams : Params where
  frame := "base_laser_link"
  send_transform := 1
  enable_time_sync := true
  tf_x := 0.115
  tf_y := 0.0
  tf_z := 0.21
  field_of_view := DoubleVal.finite 270
  devicename := "/dev/sick300"
  baudrate := 500000

/-- Members of the `SickS300` object. -/
structure SickS300 (F T Y : Type) where
  scan_data_ : LaserScan F T
  transform_vector_ : Vector3
  device_name_ : String
  baud_rate_ : Int
  send_transform_ : Bool
  enable_Tsync : Bool
  field_of_view_ : Int
  start_scan_ : Nat
  end_scan_ : Nat
  connected_ : Int
  pstampSynchronizer : Y

/-- The window members computed by the constructor. -/
structure Window where
  field_of_view_ : Int
  start_scan_ : Nat
  end_scan_ : Nat
deriving DecidableEq

/-- Answers of the collaborators during one call of `update`. -/
structure Tick (F T : Type) where
  connect : Int
  readData : Int
  ranges : List F
  numRanges : Nat
  protocolNumber : Nat
  scanNumber : Int
  now : T

/-- Calls made to the collaborators. -/
inductive Event (F T : Type) where
  | connect (device : String) (baud : Int)
  | readData
  | publish (scan : LaserScan F T)

/-! ## Constructor -/

/-- Lines 79-82: a field of view outside `[0, 270]` is replaced by 270. -/
def clampFov (fov : DoubleVal) : DoubleVal :=
  if DoubleVal.gt fov (DoubleVal.finite 270) || DoubleVal.lt fov (DoubleVal.finite 0) then
    DoubleVal.finite 270
  else fov

/-- Lines 79-86: `field_of_view_`, `start_scan_` and `end_scan_`. -/
def window (fov : DoubleVal) : Option Window :=
  match (clampFov fov).mul2.toInt with
  | none => none
  | some n0 =>
    let n := shr1 (shl1 n0)
    some { field_of_view_ := n
           start_scan_ := toUnsigned (270 - Int.tdiv n 2)
           end_scan_ := toUnsigned (270 + Int.tdiv n 2) }

/-- The constant `M_PI`. -/
def M_PI : Float := 3.14159265358979323846

/-- Line 88: `-(field_of_view_/4.0) / 180.f * M_PI`. -/
def angleMin (n : Int) : Float := -(Float.ofInt n / 4.0) / 180.0 * M_PI

/-- Line 89: `(field_of_view_/4.0) / 180.f * M_PI`. -/
def angleMax (n : Int) : Float := (Float.ofInt n / 4.0) / 180.0 * M_PI

/-- The call `v.resize(n)` on an empty vector of floats; a negative `n`
converts to a size beyond `max_size` and the call throws. -/
def resize {F : Type} (fzero : F) (n : Int) : Option (List F) :=
  if n < 0 then none else some (List.replicate n.toNat fzero)

/-- Lines 58-73, 88-96 and 100-120 of the constructor: the members, once the
window `w` is computed and the two `resize` calls have returned. -/
def SickS300.build {F T Y : Type} (c : Collab F T Y) (p : Params) (connectResult : Int)
    (w : Window) (ranges intensities : List F) : SickS300 F T Y where
  scan_data_ :=
    { frame_id := p.frame
      stamp := c.timeZero
      angle_min := c.narrow (angleMin w.field_of_view_)
      angle_max := c.narrow (angleMax w.field_of_view_)
      angle_increment := c.narrow (c.halfDegree * M_PI)
      time_increment := c.narrow 0
      scan_time := c.narrow 0.08
      range_min := c.narrow 0.1
      range_max := c.narrow 29.0
      ranges := ranges
      intensities := intensities }
  transform_vector_ := ⟨p.tf_x, p.tf_y, p.tf_z⟩
  device_name_ := p.devicename
  baud_rate_ := p.baudrate
  send_transform_ := if p.send_transform ≠ 0 then true else false
  enable_Tsync := p.enable_time_sync
  field_of_view_ := w.field_of_view_
  start_scan_ := w.start_scan_
  end_scan_ := w.end_scan_
  connected_ := connectResult
  pstampSynchronizer := c.newSync

/-- The constructor `SickS300::SickS300()` (the name `SickS300.SickS300` would
shadow the structure); `connectResult` is the value returned by
`serial_comm_.connect`. -/
def SickS300.ctor {F T Y : Type} (c : Collab F T Y) (p : Params) (connectResult : Int) :
    Option (SickS300 F T Y) :=
  match window p.field_of_view with
  | none => none
  | some w =>
    match resize c.fzero w.field_of_view_, resize c.fzero w.field_of_view_ with
    | some ranges, some intensities => some (SickS300.build c p connectResult w ranges intensities)
    | _, _ => none

/-! ## `update` -/

/-- Lines 142-143: the loop
`for (unsigned i = start_scan_, j = 0; i < end_scan_; i++, j++) out[j] = raw[i];`
started at `i`, `j`.  An access past the end of either array is undefined. -/
def copyLoop {F : Type} (raw : List F) (end_scan_ : Nat) (i j : Nat) (out : List F) :
    Option (List F) :=
  if i < end_scan_ then
    match raw[i]? with
    | none => none
    | some v => if j < out.length then copyLoop raw end_scan_ (i + 1) (j + 1) (out.set j v) else none
  else some out
termination_by end_scan_ - i
decreasing_by omega

/-- Lines 145-152: the stamp of the frame and the synchronizer state after it. -/
def stampOf {F T Y : Type} (c : Collab F T Y) (tk : Tick F T) (s : SickS300 F T Y) : T × Y :=
  if tk.protocolNumber = 0x0103 ∧ s.enable_Tsync = true then
    let r := c.sync s.pstampSynchronizer (0.04 * Float.ofInt tk.scanNumber) (c.toSec tk.now)
      tk.scanNumber
    (c.ofSec r.1, r.2)
  else (tk.now, s.pstampSynchronizer)

/-- Lines 131-134: the reconnect attempt made when `connected_` is not 0. -/
def reconnect {F T Y : Type} (tk : Tick F T) (s : SickS300 F T Y) :
    SickS300 F T Y × List (Event F T) :=
  if s.connected_ ≠ 0 then
    ({ s with connected_ := tk.connect }, [Event.connect s.device_name_ s.baud_rate_])
  else (s, [])

/-- The method `SickS300::update()`: the object after the call and the calls
made to the serial link and the publisher, in order. -/
def SickS300.update {F T Y : Type} (c : Collab F T Y) (tk : Tick F T) (s : SickS300 F T Y) :
    Option (SickS300 F T Y × List (Event F T)) :=
  let s1 := (reconnect tk s).1
  let pre := (reconnect tk s).2
  if s1.connected_ = 0 then
    if tk.readData = 0 then
      match copyLoop tk.ranges s1.end_scan_ s1.start_scan_ 0 s1.scan_data_.ranges with
      | none => none
      | some rs =>
        let st := stampOf c tk s1
        let scan : LaserScan F T := { s1.scan_data_ with ranges := rs, stamp := st.1 }
        some ({ s1 with scan_data_ := scan, pstampSynchronizer := st.2 },
              pre ++ [Event.readData, Event.publish scan])
    else some (s1, pre ++ [Event.readData])
  else some (s1, pre)

/-- The method `SickS300::broadcast_transform()`: the transforms passed to
`tf_broadcaster_.sendTransform`; `now` is `ros::Time::now()`. -/
def SickS300.broadcast_transform {F T Y : Type} (now : T) (s : SickS300 F T Y) :
    List (StampedTransform T) :=
  if s.send_transform_ then
    [{ rotation := ⟨0, 0, 0, 1⟩
       translation := s.transform_vector_
       stamp := now
       frame_id := "base_link"
       child_frame_id := "base_laser_link" }]
  else []

/-! ## Sample collaborators

Concrete collaborators at which the general statements are instantiated:
samples and times are binary64 values, the conversions are identities and the
synchronizer returns the nominal time. -/

/-- Sample collaborator operations. -/
def sampleCollab : Collab Float Float Unit where
  narrow := fun x => x
  fzero := 0.0
  halfDegree := 0.5 / 180.0
  timeZero := 0.0
  toSec := fun t => t
  ofSec := fun x => x
  newSync := ()
  sync := fun y nominal _ _ => (nominal, y)

/-- The object built from the default parameters after a successful connect. -/
def sampleObject : SickS300 Float Float Unit :=
  SickS300.build sampleCollab defaultParams 0
    { field_of_view_ := 540, start_scan_ := 0, end_scan_ := 540 }
    (List.replicate 540 0.0) (List.replicate 540 0.0)

/-- A tick on which `connect` and `readData` succeed. -/
def readOkTick : Tick Float Float where
  connect := 0
  readData := 0
  ranges := List.replicate 540 1.5
  numRanges := 540
  protocolNumber := 0x0103
  scanNumber := 8
  now := 100.05

/-! ## Window configuration: auxiliary facts -/

theorem tdiv_num_den_of_nonneg (r : ℚ) (h : 0 ≤ r) : Int.tdiv r.num r.den = ⌊r⌋ := by
  have hn : 0 ≤ r.num := Rat.num_nonneg.mpr h
  rw [Int.tdiv_eq_ediv hn (by positivity)]
  exact Rat.floor_def.symm

theorem dblMax_large : (540 : ℚ) < DoubleVal.dblMax := by
  norm_num [DoubleVal.dblMax]

theorem shr1_shl1 (n : Int) (h0 : 0 ≤ n) (h1 : n ≤ 540) : shr1 (shl1 n) = n := by
  unfold shr1 shl1 wrapInt
  rw [Int.shiftRight_eq_div_pow]
  norm_num
  omega

theorem clampFov_finite (q : ℚ) (h0 : 0 ≤ q) (h1 : q ≤ 270) :
    clampFov (DoubleVal.finite q) = DoubleVal.finite q := by
  simp [clampFov, DoubleVal.gt, DoubleVal.lt, h0, h1]

theorem clampFov_out_of_range (fov : DoubleVal)
    (h : fov.lt (DoubleVal.finite 0) = true ∨ fov.gt (DoubleVal.finite 270) = true) :
    clampFov fov = DoubleVal.finite 270 := by
  unfold clampFov
  rcases h with h | h <;> simp [h]

theorem toInt_mul2_finite (q : ℚ) (h0 : 0 ≤ q) (h1 : q ≤ 270) :
    (DoubleVal.finite q).mul2.toInt = some ⌊q * 2⌋ ∧ 0 ≤ ⌊q * 2⌋ ∧ ⌊q * 2⌋ ≤ 540 := by
  have hb := dblMax_large
  have hq0 : 0 ≤ q * 2 := by linarith
  have hq1 : q * 2 ≤ 540 := by linarith
  have hf0 : 0 ≤ ⌊q * 2⌋ := Int.floor_nonneg.mpr hq0
  have hf1 : ⌊q * 2⌋ ≤ 540 := by
    have : (⌊q * 2⌋ : ℚ) ≤ 540 := le_trans (Int.floor_le _) hq1
    exact_mod_cast this
  refine ⟨?_, hf0, hf1⟩
  have e1 : ¬ DoubleVal.dblMax < q * 2 := by linarith
  have e2 : ¬ q * 2 < -DoubleVal.dblMax := by linarith
  simp only [DoubleVal.mul2, e1, e2, if_false, DoubleVal.toInt, tdiv_num_den_of_nonneg _ hq0]
  rw [if_pos]
  constructor <;> omega

/-- The window computed for a finite field of view inside `[0, 270]`: the
count is `⌊2 fov⌋`, unchanged by the two shifts. -/
theorem window_finite (q : ℚ) (h0 : 0 ≤ q) (h1 : q ≤ 270) :
    window (DoubleVal.finite q) =
      some { field_of_view_ := ⌊q * 2⌋
             start_scan_ := (270 - ⌊q * 2⌋ / 2).toNat
             end_scan_ := (270 + ⌊q * 2⌋ / 2).toNat } := by
  obtain ⟨e, f0, f1⟩ := toInt_mul2_finite q h0 h1
  have ht : Int.tdiv ⌊q * 2⌋ 2 = ⌊q * 2⌋ / 2 := Int.tdiv_eq_ediv f0 (by norm_num)
  have hs : toUnsigned (270 - ⌊q * 2⌋ / 2) = (270 - ⌊q * 2⌋ / 2).toNat := by
    unfold toUnsigned
    congr 1
    omega
  have he : toUnsigned (270 + ⌊q * 2⌋ / 2) = (270 + ⌊q * 2⌋ / 2).toNat := by
    unfold toUnsigned
    congr 1
    omega
  simp only [window, clampFov_finite q h0 h1, e, shr1_shl1 _ f0 f1, ht, hs, he]

theorem ctor_of_window {F T Y : Type} (c : Collab F T Y) (p : Params) (r : Int) (w : Window)
    (hw : window p.field_of_view = some w) (h0 : 0 ≤ w.field_of_view_) :
    SickS300.ctor c p r =
      some (SickS300.build c p r w (List.replicate w.field_of_view_.toNat c.fzero)
        (List.replicate w.field_of_view_.toNat c.fzero)) := by
  have hn : ¬ w.field_of_view_ < 0 := by omega
  simp [SickS300.ctor, hw, resize, hn]

theorem floor_half_degree : ⌊(1 / 2 : ℚ) * 2⌋ = 1 := by
  norm_num

theorem floor_whole_degrees (d : Int) : ⌊(d : ℚ) * 2⌋ = 2 * d := by
  have h : (d : ℚ) * 2 = ((2 * d : Int) : ℚ) := by push_cast; ring
  rw [h, Int.floor_intCast]

/-- The object built for a finite field of view inside `[0, 270]`. -/
theorem ctor_finite {F T Y : Type} (c : Collab F T Y) (p : Params) (r : Int) (q : ℚ)
    (hp : p.field_of_view = DoubleVal.finite q) (h0 : 0 ≤ q) (h1 : q ≤ 270) :
    SickS300.ctor c p r =
      some (SickS300.build c p r
        { field_of_view_ := ⌊q * 2⌋
          start_scan_ := (270 - ⌊q * 2⌋ / 2).toNat
          end_scan_ := (270 + ⌊q * 2⌋ / 2).toNat }
        (List.replicate ⌊q * 2⌋.toNat c.fzero) (List.replicate ⌊q * 2⌋.toNat c.fzero)) := by
  have hw := window_finite q h0 h1
  rw [← hp] at hw
  exact ctor_of_window c p r _ hw (toInt_mul2_finite q h0 h1).2.1

/-! ## Window configuration: the claims -/

/-- C1 (fails on the code): a requested field of view of 0.5 degrees gives the
window index-count 1, which is odd; the shift pair of line 84 leaves the count
unchanged. -/
theorem C1_half_degree_count_is_odd {F T Y : Type} (c : Collab F T Y) (r : Int) :
    ∃ s, SickS300.ctor c { defaultParams with field_of_view := DoubleVal.finite (1 / 2) } r
        = some s ∧ s.field_of_view_ = 1 ∧ ¬ (2 ∣ s.field_of_view_) := by
  refine ⟨_, ctor_finite c _ r (1 / 2) rfl (by norm_num) (by norm_num), ?_, ?_⟩
  · simp only [SickS300.build, floor_half_degree]
  · simp only [SickS300.build, floor_half_degree]
    decide

/-- C2 (fails on the code): for a requested field of view of 0.5 degrees the
copy bounds are both 270, so `end_scan_ - start_scan_` is 0, while the window
index-count and the length of the `ranges` buffer are 1. -/
theorem C2_half_degree_bounds_differ_from_count {F T Y : Type} (c : Collab F T Y) (r : Int) :
    ∃ s, SickS300.ctor c { defaultParams with field_of_view := DoubleVal.finite (1 / 2) } r
        = some s ∧ s.start_scan_ = 270 ∧ s.end_scan_ = 270 ∧
        (s.end_scan_ : Int) - s.start_scan_ = 0 ∧ s.field_of_view_ = 1 ∧
        s.scan_data_.ranges.length = 1 := by
  refine ⟨_, ctor_finite c _ r (1 / 2) rfl (by norm_num) (by norm_num), ?_, ?_, ?_, ?_, ?_⟩ <;>
    simp [SickS300.build, floor_half_degree]

/-- C4: a field of view below 0 or above 270 (infinities included) yields the
same object as a field of view of 270, with count 540 and bounds 0 and 540,
and the constructor returns. -/
theorem C4_out_of_range_fov_is_270 {F T Y : Type} (c : Collab F T Y) (p : Params) (r : Int)
    (fov : DoubleVal)
    (h : fov.lt (DoubleVal.finite 0) = true ∨ fov.gt (DoubleVal.finite 270) = true) :
    ∃ s, SickS300.ctor c { p with field_of_view := fov } r = some s ∧
      SickS300.ctor c { p with field_of_view := DoubleVal.finite 270 } r = some s ∧
      s.field_of_view_ = 540 ∧ s.start_scan_ = 0 ∧ s.end_scan_ = 540 ∧
      s.scan_data_.angle_min = c.narrow (angleMin 540) ∧
      s.scan_data_.angle_max = c.narrow (angleMax 540) := by
  have hc : clampFov fov = clampFov (DoubleVal.finite 270) := by
    rw [clampFov_out_of_range fov h, clampFov_finite 270 (by norm_num) (by norm_num)]
  have hw : window fov = window (DoubleVal.finite 270) := by
    simp only [window, hc]
  have hf : ⌊(270 : ℚ) * 2⌋ = 540 := by norm_num
  have e270 := ctor_finite c { p with field_of_view := DoubleVal.finite 270 } r 270 rfl
    (by norm_num) (by norm_num)
  have efov : SickS300.ctor c { p with field_of_view := fov } r
      = SickS300.ctor c { p with field_of_view := DoubleVal.finite 270 } r := by
    simp only [SickS300.ctor, hw]
    rfl
  refine ⟨_, efov.trans e270, e270, ?_, ?_, ?_, ?_, ?_⟩ <;>
    simp only [SickS300.build, hf] <;> rfl

theorem C4_out_of_range_fov_is_270_witness :
    ((DoubleVal.finite 400).lt (DoubleVal.finite 0) = true ∨
        (DoubleVal.finite 400).gt (DoubleVal.finite 270) = true) ∧
    ∃ s, SickS300.ctor sampleCollab
        { defaultParams with field_of_view := DoubleVal.finite 400 } 0 = some s ∧
      SickS300.ctor sampleCollab
        { defaultParams with field_of_view := DoubleVal.finite 270 } 0 = some s ∧
      s.field_of_view_ = 540 ∧ s.start_scan_ = 0 ∧ s.end_scan_ = 540 ∧
      s.scan_data_.angle_min = sampleCollab.narrow (angleMin 540) ∧
      s.scan_data_.angle_max = sampleCollab.narrow (angleMax 540) :=
  ⟨by norm_num [DoubleVal.lt, DoubleVal.gt],
   C4_out_of_range_fov_is_270 sampleCollab defaultParams 0 (DoubleVal.finite 400)
     (by norm_num [DoubleVal.lt, DoubleVal.gt])⟩

/-- C5: for a whole number of degrees `d` in `[0, 270]` the constructor sets
the window index-count to `2 d`, `start_scan_` to `270 - d` and `end_scan_`
to `270 + d`. -/
theorem C5_whole_degrees {F T Y : Type} (c : Collab F T Y) (p : Params) (r : Int) (d : Int)
    (hp : p.field_of_view = DoubleVal.finite d) (h0 : 0 ≤ d) (h1 : d ≤ 270) :
    ∃ s, SickS300.ctor c p r = some s ∧ s.field_of_view_ = 2 * d ∧
      (s.start_scan_ : Int) = 270 - d ∧ (s.end_scan_ : Int) = 270 + d := by
  have q0 : (0 : ℚ) ≤ d := by exact_mod_cast h0
  have q1 : (d : ℚ) ≤ 270 := by exact_mod_cast h1
  refine ⟨_, ctor_finite c p r d hp q0 q1, ?_, ?_, ?_⟩
  · simp only [SickS300.build, floor_whole_degrees]
  · simp only [SickS300.build, floor_whole_degrees]
    omega
  · simp only [SickS300.build, floor_whole_degrees]
    omega

theorem C5_whole_degrees_witness :
    (0 : Int) ≤ 180 ∧ (180 : Int) ≤ 270 ∧
    ∃ s, SickS300.ctor sampleCollab
        { defaultParams with field_of_view := DoubleVal.finite ((180 : Int) : ℚ) } 0 = some s ∧
      s.field_of_view_ = 2 * 180 ∧
      (s.start_scan_ : Int) = 270 - 180 ∧ (s.end_scan_ : Int) = 270 + 180 :=
  ⟨by decide, by decide,
   C5_whole_degrees sampleCollab
     { defaultParams with field_of_view := DoubleVal.finite ((180 : Int) : ℚ) } 0 180 rfl
     (by decide) (by decide)⟩

/-! ## The copy loop -/

/-- The copy loop returns when the raw array reaches `end_scan_` and the output
buffer has room; it overwrites exactly the first `end_scan_ - i` places from
`j` on with the raw samples from `i` on. -/
theorem copyLoop_spec {F : Type} (raw : List F) (e : Nat) :
    ∀ (n i j : Nat) (out : List F), e - i = n → e ≤ raw.length → j + n ≤ out.length →
      ∃ rs, copyLoop raw e i j out = some rs ∧ rs.length = out.length ∧
        (∀ k, k < n → rs[j + k]? = raw[i + k]?) ∧
        (∀ k, k < j ∨ j + n ≤ k → rs[k]? = out[k]?) := by
  intro n
  induction n with
  | zero =>
    intro i j out hn _ _
    have hi : ¬ i < e := by omega
    refine ⟨out, ?_, rfl, ?_, ?_⟩
    · rw [copyLoop]
      simp [hi]
    · intro k hk
      omega
    · intro k _
      rfl
  | succ n ih =>
    intro i j out hn hraw hout
    have hi : i < e := by omega
    have hir : i < raw.length := by omega
    have hj : j < out.length := by omega
    obtain ⟨rs, hrs, hlen, hcopy, hkeep⟩ :=
      ih (i + 1) (j + 1) (out.set j raw[i]) (by omega) hraw (by rw [List.length_set]; omega)
    refine ⟨rs, ?_, ?_, ?_, ?_⟩
    · rw [copyLoop]
      simp [hi, List.getElem?_eq_getElem hir, hj, hrs]
    · rw [hlen, List.length_set]
    · intro k hk
      cases k with
      | zero =>
        have h0 := hkeep j (Or.inl (by omega))
        simpa [List.getElem?_set_self hj, List.getElem?_eq_getElem hir] using h0
      | succ k =>
        have := hcopy k (by omega)
        have e1 : j + (k + 1) = j + 1 + k := by omega
        have e2 : i + (k + 1) = i + 1 + k := by omega
        rw [e1, e2]
        exact this
    · intro k hk
      have hne : j ≠ k := by omega
      rw [hkeep k (by omega), List.getElem?_set_ne hne]

/-- Whenever the copy loop returns, the output buffer keeps its length. -/
theorem copyLoop_length {F : Type} (raw : List F) (e : Nat) :
    ∀ (n i j : Nat) (out rs : List F), e - i = n → copyLoop raw e i j out = some rs →
      rs.length = out.length := by
  intro n
  induction n with
  | zero =>
    intro i j out rs hn h
    have hi : ¬ i < e := by omega
    rw [copyLoop] at h
    simp only [hi, if_false, Option.some.injEq] at h
    rw [← h]
  | succ n ih =>
    intro i j out rs hn h
    have hi : i < e := by omega
    rw [copyLoop] at h
    simp only [hi, if_true] at h
    cases hv : raw[i]? with
    | none => simp [hv] at h
    | some v =>
      simp only [hv] at h
      by_cases hj : j < out.length
      · simp only [hj, if_true] at h
        rw [ih (i + 1) (j + 1) (out.set j v) rs (by omega) h, List.length_set]
      · simp [hj] at h

/-! ## Constructor: the window members of the result -/

/-- The window members and the `ranges` buffer of the object built for a
finite field of view inside `[0, 270]`. -/
theorem ctor_window_fields {F T Y : Type} (c : Collab F T Y) (p : Params) (r : Int) (q : ℚ)
    (hp : p.field_of_view = DoubleVal.finite q) (h0 : 0 ≤ q) (h1 : q ≤ 270) :
    ∃ s f, SickS300.ctor c p r = some s ∧ f = ⌊q * 2⌋ ∧ 0 ≤ f ∧ f ≤ 540 ∧
      s.field_of_view_ = f ∧ (s.start_scan_ : Int) = 270 - f / 2 ∧
      (s.end_scan_ : Int) = 270 + f / 2 ∧
      s.scan_data_.ranges = List.replicate f.toNat c.fzero ∧ s.connected_ = r := by
  obtain ⟨_, f0, f1⟩ := toInt_mul2_finite q h0 h1
  refine ⟨_, ⌊q * 2⌋, ctor_finite c p r q hp h0 h1, rfl, f0, f1, ?_, ?_, ?_, ?_, ?_⟩
  · simp only [SickS300.build]
  · simp only [SickS300.build]
    omega
  · simp only [SickS300.build]
    omega
  · simp only [SickS300.build]
  · simp only [SickS300.build]

/-- C3: for a field of view inside `[0, 270]` the subtraction
`270 - field_of_view_/2` does not go below 0, `start_scan_` is its value,
`end_scan_` is at most 540, every index visited by the copy loop is below 540,
and on a raw array of 540 samples the copy loop of `update` returns (no access
outside the raw array or the `ranges` buffer). -/
theorem C3_copy_bounds_within_native_range {F T Y : Type} (c : Collab F T Y) (p : Params)
    (r : Int) (q : ℚ) (hp : p.field_of_view = DoubleVal.finite q) (h0 : 0 ≤ q) (h1 : q ≤ 270) :
    ∃ s, SickS300.ctor c p r = some s ∧
      0 ≤ 270 - Int.tdiv s.field_of_view_ 2 ∧
      (s.start_scan_ : Int) = 270 - Int.tdiv s.field_of_view_ 2 ∧
      (s.end_scan_ : Int) = 270 + Int.tdiv s.field_of_view_ 2 ∧
      s.end_scan_ ≤ 540 ∧
      (∀ i, s.start_scan_ ≤ i → i < s.end_scan_ → i < 540) ∧
      (∀ raw : List F, raw.length = 540 →
        ∃ rs, copyLoop raw s.end_scan_ s.start_scan_ 0 s.scan_data_.ranges = some rs) := by
  obtain ⟨s, f, hs, _, f0, f1, hf, hst, hen, hr, _⟩ := ctor_window_fields c p r q hp h0 h1
  have ht : Int.tdiv s.field_of_view_ 2 = f / 2 := by
    rw [hf]
    exact Int.tdiv_eq_ediv f0 (by norm_num)
  refine ⟨s, hs, ?_, ?_, ?_, ?_, ?_, ?_⟩
  · omega
  · omega
  · omega
  · omega
  · intro i _ hi
    omega
  · intro raw hraw
    have hlen : s.scan_data_.ranges.length = f.toNat := by
      rw [hr, List.length_replicate]
    obtain ⟨rs, hrs, _⟩ := copyLoop_spec raw s.end_scan_ (s.end_scan_ - s.start_scan_)
      s.start_scan_ 0 s.scan_data_.ranges rfl (by omega) (by omega)
    exact ⟨rs, hrs⟩

theorem C3_copy_bounds_within_native_range_witness :
    (0 : ℚ) ≤ 180 ∧ (180 : ℚ) ≤ 270 ∧
    ∃ s, SickS300.ctor sampleCollab
        { defaultParams with field_of_view := DoubleVal.finite 180 } 0 = some s ∧
      0 ≤ 270 - Int.tdiv s.field_of_view_ 2 ∧
      (s.start_scan_ : Int) = 270 - Int.tdiv s.field_of_view_ 2 ∧
      (s.end_scan_ : Int) = 270 + Int.tdiv s.field_of_view_ 2 ∧
      s.end_scan_ ≤ 540 ∧
      (∀ i, s.start_scan_ ≤ i → i < s.end_scan_ → i < 540) ∧
      (∀ raw : List Float, raw.length = 540 →
        ∃ rs, copyLoop raw s.end_scan_ s.start_scan_ 0 s.scan_data_.ranges = some rs) :=
  ⟨by norm_num, by norm_num,
   C3_copy_bounds_within_native_range sampleCollab
     { defaultParams with field_of_view := DoubleVal.finite 180 } 0 180 rfl
     (by norm_num) (by norm_num)⟩

/-! ## `update`: auxiliary facts -/

theorem reconnect_of_connected {F T Y : Type} (tk : Tick F T) (s : SickS300 F T Y)
    (h : s.connected_ = 0) : reconnect tk s = (s, []) := by
  simp [reconnect, h]

theorem reconnect_window {F T Y : Type} (tk : Tick F T) (s : SickS300 F T Y) :
    (reconnect tk s).1.start_scan_ = s.start_scan_ ∧
    (reconnect tk s).1.end_scan_ = s.end_scan_ ∧
    (reconnect tk s).1.scan_data_ = s.scan_data_ ∧
    (reconnect tk s).1.enable_Tsync = s.enable_Tsync ∧
    (reconnect tk s).1.pstampSynchronizer = s.pstampSynchronizer := by
  unfold reconnect
  split <;> simp

/-- A call of `update` whose reconnect attempt fails: nothing else happens. -/
theorem update_not_connected {F T Y : Type} (c : Collab F T Y) (tk : Tick F T)
    (s : SickS300 F T Y) (h : (reconnect tk s).1.connected_ ≠ 0) :
    SickS300.update c tk s = some ((reconnect tk s).1, (reconnect tk s).2) := by
  simp [SickS300.update, h]

/-- A call of `update` whose read fails: the object is the one left by the
reconnect phase. -/
theorem update_read_failed {F T Y : Type} (c : Collab F T Y) (tk : Tick F T)
    (s : SickS300 F T Y) (h : (reconnect tk s).1.connected_ = 0) (hr : tk.readData ≠ 0) :
    SickS300.update c tk s =
      some ((reconnect tk s).1, (reconnect tk s).2 ++ [Event.readData]) := by
  simp [SickS300.update, h, hr]

/-- A call of `update` whose read succeeds, on a raw array that reaches
`end_scan_`: the window is copied, the frame is stamped and published. -/
theorem update_read_ok {F T Y : Type} (c : Collab F T Y) (tk : Tick F T)
    (s : SickS300 F T Y) (h : (reconnect tk s).1.connected_ = 0) (hr : tk.readData = 0)
    (hraw : s.end_scan_ ≤ tk.ranges.length)
    (hout : s.end_scan_ - s.start_scan_ ≤ s.scan_data_.ranges.length) :
    ∃ rs, copyLoop tk.ranges s.end_scan_ s.start_scan_ 0 s.scan_data_.ranges = some rs ∧
      SickS300.update c tk s =
        some ({ (reconnect tk s).1 with
                scan_data_ := { s.scan_data_ with
                  ranges := rs, stamp := (stampOf c tk (reconnect tk s).1).1 }
                pstampSynchronizer := (stampOf c tk (reconnect tk s).1).2 },
              (reconnect tk s).2 ++
                [Event.readData,
                 Event.publish { s.scan_data_ with
                   ranges := rs, stamp := (stampOf c tk (reconnect tk s).1).1 }]) := by
  obtain ⟨rs, hrs, _⟩ := copyLoop_spec tk.ranges s.end_scan_ (s.end_scan_ - s.start_scan_)
    s.start_scan_ 0 s.scan_data_.ranges rfl hraw (by omega)
  obtain ⟨w1, w2, w3, _, _⟩ := reconnect_window tk s
  refine ⟨rs, hrs, ?_⟩
  simp only [SickS300.update, h, hr, w1, w2, w3, hrs, if_true]

theorem clampFov_cases (fov : DoubleVal) :
    clampFov fov = DoubleVal.nan ∨
    ∃ q : ℚ, clampFov fov = DoubleVal.finite q ∧ 0 ≤ q ∧ q ≤ 270 := by
  cases fov with
  | finite q =>
    by_cases h : 270 < q ∨ q < 0
    · right
      refine ⟨270, ?_, by norm_num, by norm_num⟩
      rcases h with h | h <;> simp [clampFov, DoubleVal.gt, DoubleVal.lt, h]
    · right
      have h0 : 0 ≤ q := by
        by_contra hc
        exact h (Or.inr (lt_of_not_ge hc))
      have h1 : q ≤ 270 := by
        by_contra hc
        exact h (Or.inl (lt_of_not_ge hc))
      exact ⟨q, clampFov_finite q h0 h1, h0, h1⟩
  | posInf =>
    right
    exact ⟨270, by simp [clampFov, DoubleVal.gt, DoubleVal.lt], by norm_num, by norm_num⟩
  | negInf =>
    right
    exact ⟨270, by simp [clampFov, DoubleVal.gt, DoubleVal.lt], by norm_num, by norm_num⟩
  | nan =>
    left
    simp [clampFov, DoubleVal.gt, DoubleVal.lt]

/-- Every object returned by the constructor has a window inside the native
index range that fits its `ranges` buffer; the constructor fails only for a
NaN field of view. -/
theorem ctor_some_window {F T Y : Type} (c : Collab F T Y) (p : Params) (r : Int)
    (s : SickS300 F T Y) (h : SickS300.ctor c p r = some s) :
    0 ≤ s.field_of_view_ ∧ s.field_of_view_ ≤ 540 ∧ s.end_scan_ ≤ 540 ∧
    s.scan_data_.ranges.length = s.field_of_view_.toNat ∧
    s.end_scan_ - s.start_scan_ ≤ s.scan_data_.ranges.length := by
  rcases clampFov_cases p.field_of_view with hn | ⟨q, hq, h0, h1⟩
  · have hw : window p.field_of_view = none := by
      simp [window, hn, DoubleVal.mul2, DoubleVal.toInt]
    simp [SickS300.ctor, hw] at h
  · have hw : window p.field_of_view = window (DoubleVal.finite q) := by
      simp only [window, hq, clampFov_finite q h0 h1]
    have e : SickS300.ctor c p r
        = SickS300.ctor c { p with field_of_view := DoubleVal.finite q } r := by
      simp only [SickS300.ctor, hw]
      rfl
    obtain ⟨t, f, ht, _, f0, f1, hf, hst, hen, hr, _⟩ :=
      ctor_window_fields c { p with field_of_view := DoubleVal.finite q } r q rfl h0 h1
    rw [e, ht] at h
    cases h
    have hlen : s.scan_data_.ranges.length = f.toNat := by
      rw [hr, List.length_replicate]
    refine ⟨by omega, by omega, by omega, by rw [hlen, hf], by omega⟩

/-- A call of `update` that returns leaves the window members and the length
of the `ranges` buffer as they were. -/
theorem update_preserves_window {F T Y : Type} (c : Collab F T Y) (tk : Tick F T)
    (s s' : SickS300 F T Y) (tr : List (Event F T))
    (h : SickS300.update c tk s = some (s', tr)) :
    s'.start_scan_ = s.start_scan_ ∧ s'.end_scan_ = s.end_scan_ ∧
    s'.field_of_view_ = s.field_of_view_ ∧
    s'.scan_data_.ranges.length = s.scan_data_.ranges.length := by
  have hrec : (reconnect tk s).1.start_scan_ = s.start_scan_ ∧
      (reconnect tk s).1.end_scan_ = s.end_scan_ ∧
      (reconnect tk s).1.field_of_view_ = s.field_of_view_ ∧
      (reconnect tk s).1.scan_data_ = s.scan_data_ := by
    unfold reconnect
    split <;> simp
  obtain ⟨w1, w2, w3, w4⟩ := hrec
  by_cases hc : (reconnect tk s).1.connected_ = 0
  · by_cases hr : tk.readData = 0
    · simp only [SickS300.update, hc, hr, if_true, w1, w2, w4] at h
      cases hl : copyLoop tk.ranges s.end_scan_ s.start_scan_ 0 s.scan_data_.ranges with
      | none => simp [hl] at h
      | some rs =>
        simp only [hl, Option.some.injEq, Prod.mk.injEq] at h
        obtain ⟨hs, _⟩ := h
        subst hs
        refine ⟨rfl, rfl, w3, ?_⟩
        exact copyLoop_length _ _ (s.end_scan_ - s.start_scan_) _ _ _ _ rfl hl
    · rw [update_read_failed c tk s hc hr] at h
      simp only [Option.some.injEq, Prod.mk.injEq] at h
      obtain ⟨hs, _⟩ := h
      subst hs
      exact ⟨w1, w2, w3, by rw [w4]⟩
  · rw [update_not_connected c tk s hc] at h
    simp only [Option.some.injEq, Prod.mk.injEq] at h
    obtain ⟨hs, _⟩ := h
    subst hs
    exact ⟨w1, w2, w3, by rw [w4]⟩

/-- The method `broadcast_transform` sends one transform when
`send_transform_` is set and none otherwise; the constructor sets the flag
exactly when the `send_transform` parameter is not 0. -/
theorem broadcast_transform_iff_flag {F T Y : Type} (now : T) (s : SickS300 F T Y) :
    ((SickS300.broadcast_transform now s).length = 1 ↔ s.send_transform_ = true) ∧
    (s.send_transform_ = false → SickS300.broadcast_transform now s = []) := by
  unfold SickS300.broadcast_transform
  cases s.send_transform_ <;> simp

/-! ## `update`: the claims -/

/-- C8 (fails on the code): with a requested field of view of 0.5 degrees and a
successful read, the published frame has one range sample, and that sample is
the initial 0 of the buffer whatever the raw array holds: the copy loop runs
from 270 to 270 and copies nothing, so `ranges[0]` is not `raw[270]`. -/
theorem C8_half_degree_frame_keeps_initial_sample {F T Y : Type} (c : Collab F T Y)
    (tk : Tick F T) :
    ∃ s s' frame,
      SickS300.ctor c { defaultParams with field_of_view := DoubleVal.finite (1 / 2) } 0
        = some s ∧
      s.field_of_view_ = 1 ∧ s.start_scan_ = 270 ∧ s.end_scan_ = 270 ∧
      SickS300.update c { tk with readData := 0 } s
        = some (s', [Event.readData, Event.publish frame]) ∧
      frame.ranges = [c.fzero] := by
  have hs := ctor_finite c { defaultParams with field_of_view := DoubleVal.finite (1 / 2) } 0
    (1 / 2) rfl (by norm_num) (by norm_num)
  rw [floor_half_degree] at hs
  have hl : copyLoop tk.ranges 270 270 0 [c.fzero] = some [c.fzero] := by
    rw [copyLoop]
    simp
  obtain ⟨s, hs, hf, hst, hen, hrg, hcn⟩ : ∃ s : SickS300 F T Y,
      SickS300.ctor c { defaultParams with field_of_view := DoubleVal.finite (1 / 2) } 0
        = some s ∧
      s.field_of_view_ = 1 ∧ s.start_scan_ = 270 ∧ s.end_scan_ = 270 ∧
      s.scan_data_.ranges = [c.fzero] ∧ s.connected_ = 0 :=
    ⟨_, hs, rfl, rfl, rfl, rfl, rfl⟩
  have hrec : reconnect { tk with readData := 0 } s = (s, []) :=
    reconnect_of_connected _ _ hcn
  refine ⟨s,
    { s with
      scan_data_ := { s.scan_data_ with
        ranges := [c.fzero], stamp := (stampOf c { tk with readData := 0 } s).1 }
      pstampSynchronizer := (stampOf c { tk with readData := 0 } s).2 },
    { s.scan_data_ with
      ranges := [c.fzero], stamp := (stampOf c { tk with readData := 0 } s).1 },
    hs, hf, hst, hen, ?_, rfl⟩
  simp only [SickS300.update, hrec, hcn, hst, hen, hrg, hl, if_true, List.nil_append]

/-- C9: on a successful read the stamp of the published frame is
`ros::Time(sync(0.04 * scanNum, now.toSec(), scanNum))` when the protocol number
is `0x0103` and time synchronization is enabled, and `now` in every other
case. -/
theorem C9_stamp_policy {F T Y : Type} (c : Collab F T Y) (tk : Tick F T)
    (s : SickS300 F T Y) (hc : (reconnect tk s).1.connected_ = 0) (hr : tk.readData = 0)
    (hraw : s.end_scan_ ≤ tk.ranges.length)
    (hout : s.end_scan_ - s.start_scan_ ≤ s.scan_data_.ranges.length) :
    ∃ s' frame,
      SickS300.update c tk s
        = some (s', (reconnect tk s).2 ++ [Event.readData, Event.publish frame]) ∧
      s'.scan_data_ = frame ∧
      (tk.protocolNumber = 0x0103 → s.enable_Tsync = true →
        frame.stamp = c.ofSec (c.sync s.pstampSynchronizer (0.04 * Float.ofInt tk.scanNumber)
          (c.toSec tk.now) tk.scanNumber).1) ∧
      (¬ (tk.protocolNumber = 0x0103 ∧ s.enable_Tsync = true) → frame.stamp = tk.now) := by
  obtain ⟨rs, _, hu⟩ := update_read_ok c tk s hc hr hraw hout
  obtain ⟨_, _, _, w4, w5⟩ := reconnect_window tk s
  refine ⟨_, _, hu, rfl, ?_, ?_⟩
  · intro hp he
    simp only [stampOf, w4, w5, hp, he, and_self, if_true]
  · intro hn
    simp only [stampOf, w4, w5, hn, if_false]

theorem C9_stamp_policy_witness :
    (reconnect readOkTick sampleObject).1.connected_ = 0 ∧ readOkTick.readData = 0 ∧
    sampleObject.end_scan_ ≤ readOkTick.ranges.length ∧
    sampleObject.end_scan_ - sampleObject.start_scan_
      ≤ sampleObject.scan_data_.ranges.length ∧
    ∃ s' frame,
      SickS300.update sampleCollab readOkTick sampleObject
        = some (s', (reconnect readOkTick sampleObject).2
            ++ [Event.readData, Event.publish frame]) ∧
      s'.scan_data_ = frame ∧
      (readOkTick.protocolNumber = 0x0103 → sampleObject.enable_Tsync = true →
        frame.stamp = sampleCollab.ofSec
          (sampleCollab.sync sampleObject.pstampSynchronizer
            (0.04 * Float.ofInt readOkTick.scanNumber)
            (sampleCollab.toSec readOkTick.now) readOkTick.scanNumber).1) ∧
      (¬ (readOkTick.protocolNumber = 0x0103 ∧ sampleObject.enable_Tsync = true) →
        frame.stamp = readOkTick.now) :=
  ⟨rfl, rfl,
   by simp only [sampleObject, SickS300.build, readOkTick, List.length_replicate, le_refl],
   by simp only [sampleObject, SickS300.build, readOkTick, List.length_replicate, Nat.sub_zero,
       le_refl],
   C9_stamp_policy sampleCollab readOkTick sampleObject rfl rfl
     (by simp only [sampleObject, SickS300.build, readOkTick, List.length_replicate, le_refl])
     (by simp only [sampleObject, SickS300.build, readOkTick, List.length_replicate, Nat.sub_zero,
       le_refl])⟩

/-! ## `broadcast_transform`: the claim -/

/-- C10 (fails on the code): with the `frame` parameter set to `"laser"` and the
transform enabled, the scan frame id is `"laser"` but the transform that is
sent has the child frame `"base_laser_link"`; it has the identity rotation, the
configured translation and the parent frame `"base_link"`. -/
theorem C10_child_frame_is_not_the_configured_frame {F T Y : Type} (c : Collab F T Y)
    (r : Int) (now : T) :
    ∃ s tf, SickS300.ctor c { defaultParams with frame := "laser" } r = some s ∧
      s.scan_data_.frame_id = "laser" ∧
      SickS300.broadcast_transform now s = [tf] ∧
      tf.child_frame_id = "base_laser_link" ∧
      tf.child_frame_id ≠ s.scan_data_.frame_id ∧
      tf.frame_id = "base_link" ∧ tf.rotation = ⟨0, 0, 0, 1⟩ ∧
      tf.translation = ⟨defaultParams.tf_x, defaultParams.tf_y, defaultParams.tf_z⟩ ∧
      tf.stamp = now := by
  have hs := ctor_finite c { defaultParams with frame := "laser" } r 270 rfl
    (by norm_num) (by norm_num)
  refine ⟨_, _, hs, rfl, rfl, rfl, ?_, rfl, rfl, rfl, rfl⟩
  simp only [SickS300.build]
  decide

end Sicks300
